import Mathlib

/-!
Shallow embedding of the memory-protection core of `rust-il2-utils`
(`src/mem/mod.rs` and `src/mem/impl_win32/mod.rs`).

Bytes are modelled as `Nat` (values below 256 in practice; XOR on `Nat`
restricts correctly), buffers as `List Nat`. The 64-bit PRNG state is a
`Nat` reduced `% 2 ^ 64` wherever the Rust code wraps. Calls into the OS
(page lock / unlock, `CryptProtectMemory` / `CryptUnprotectMemory`) are
modelled by explicit oracle parameters: a `Bool` giving the outcome of a
lock call, and `List Nat → Option (List Nat)` for the in-place encryption
primitives, where `none` models failure of the OS call. A Rust panic
(process abort) is modelled as the `none` branch of an `Option` result.
-/

namespace Il2Mem

/-- Outcome of one call through `lock_mem` / `unlock_mem`: the boolean the
caller sees, and whether the underlying OS primitive was actually invoked. -/
structure MemCall where
  result : Bool
  osInvoked : Bool
  deriving Repr, DecidableEq

/-- `lock_mem` from `src/mem/mod.rs`: delegates to the OS primitive only when
`size > 0`, otherwise returns `false` without any OS call. The oracle
`osLockOk` is the OS primitive's answer. -/
def lock_mem (osLockOk : Bool) (size : Nat) : MemCall :=
  if size > 0 then ⟨osLockOk, true⟩ else ⟨false, false⟩

/-- `unlock_mem` from `src/mem/mod.rs`: delegates to the OS primitive only
when `size > 0`, otherwise returns `false` without any OS call. -/
def unlock_mem (osUnlockOk : Bool) (size : Nat) : MemCall :=
  if size > 0 then ⟨osUnlockOk, true⟩ else ⟨false, false⟩

/-- `SecretBytes` from `src/mem/mod.rs`: a byte buffer `value`, the page-lock
flag `locked`, and the logical length `len`. -/
structure SecretBytes where
  value : List Nat
  locked : Bool
  len : Nat
  deriving Repr, DecidableEq

/-- `SecretBytes::is_empty`: true when the logical length is 0. -/
def SecretBytes.is_empty (s : SecretBytes) : Bool :=
  s.len == 0

/-- `SecretBytes::buffer_len`: the size of the inner buffer. -/
def SecretBytes.buffer_len (s : SecretBytes) : Nat :=
  s.value.length

/-- `SecretBytes::value()`: the slice bounded by the logical length. -/
def SecretBytes.value_bytes (s : SecretBytes) : List Nat :=
  s.value.take s.len

/-- `SecretBytes::buffer()`: the full buffer. -/
def SecretBytes.buffer (s : SecretBytes) : List Nat :=
  s.value

/-- `SecretBytes::lock` (private): attempts the OS lock only when the value is
non-empty and not already locked; records the actual outcome. The second
component reports whether the OS primitive was invoked. -/
def SecretBytes.lockOp (s : SecretBytes) (osLockOk : Bool) : SecretBytes × Bool :=
  if !s.is_empty && !s.locked then
    let c := lock_mem osLockOk s.value.length
    ({ s with locked := c.result }, c.osInvoked)
  else
    (s, false)

/-- `SecretBytes::unlock` (private): if locked, calls the OS unlock and keeps
`locked` exactly when the unlock call failed. The second component reports
whether the OS primitive was invoked. -/
def SecretBytes.unlockOp (s : SecretBytes) (osUnlockOk : Bool) : SecretBytes × Bool :=
  if s.locked then
    let c := unlock_mem osUnlockOk s.value.length
    ({ s with locked := !c.result }, c.osInvoked)
  else
    (s, false)

/-- `SecretBytes::new` with OS-call tracking: zero-filled buffer of the given
size, logical length equal to the size, then a lock attempt when requested.
The second component reports whether the OS lock primitive was invoked. -/
def SecretBytes.newT (size : Nat) (want_lock : Bool) (osLockOk : Bool) :
    SecretBytes × Bool :=
  let ret : SecretBytes := { value := List.replicate size 0, locked := false, len := size }
  if want_lock then ret.lockOp osLockOk else (ret, false)

/-- `SecretBytes::new` from `src/mem/mod.rs`. -/
def SecretBytes.new (size : Nat) (want_lock : Bool) (osLockOk : Bool) : SecretBytes :=
  (SecretBytes.newT size want_lock osLockOk).1

/-- `SecretBytes::with_value` with OS-call tracking: `new` for the value's
length followed by `copy_from_slice` of the value into the buffer. -/
def SecretBytes.with_valueT (v : List Nat) (want_lock : Bool) (osLockOk : Bool) :
    SecretBytes × Bool :=
  let r := SecretBytes.newT v.length want_lock osLockOk
  ({ r.1 with value := v }, r.2)

/-- `SecretBytes::with_value` from `src/mem/mod.rs`. -/
def SecretBytes.with_value (v : List Nat) (want_lock : Bool) (osLockOk : Bool) :
    SecretBytes :=
  (SecretBytes.with_valueT v want_lock osLockOk).1

/-- `SecretBytes::set_len`: clamps the logical length to the buffer size;
never touches the buffer itself. -/
def SecretBytes.set_len (s : SecretBytes) (size : Nat) : SecretBytes :=
  { s with len := min size s.buffer_len }

/-- `impl Clone for SecretBytes`: `with_value` over the full buffer with the
same lock intent, then `set_len` to the original logical length. The oracle
`osLockOk` is the outcome of the fresh lock attempt on the copy. -/
def SecretBytes.clone (s : SecretBytes) (osLockOk : Bool) : SecretBytes :=
  (SecretBytes.with_value s.value s.locked osLockOk).set_len s.len

/-- `impl Drop for SecretBytes`: zeroize the full buffer, then unlock. The
second component reports whether the OS unlock primitive was invoked. -/
def SecretBytes.dropRun (s : SecretBytes) (osUnlockOk : Bool) : SecretBytes × Bool :=
  let z : SecretBytes := { s with value := List.replicate s.value.length 0 }
  z.unlockOp osUnlockOk

/-- Writing one byte into a `SecretBytes` buffer (models a mutation through
`mut_buffer()`); used to express clone independence. -/
def SecretBytes.write (s : SecretBytes) (i : Nat) (b : Nat) : SecretBytes :=
  { s with value := s.value.set i b }

/-- Clone `s`, then overwrite byte `i` of the clone with `b`; the pair keeps
the original next to the mutated clone, so clone independence is statable. -/
def SecretBytes.cloneThenWrite (s : SecretBytes) (ok : Bool) (i b : Nat) :
    SecretBytes × SecretBytes :=
  (s, (s.clone ok).write i b)

/-- The data-model invariant that `locked` implies a non-empty buffer. -/
def SecretBytes.lockedInv (s : SecretBytes) : Prop :=
  s.locked = true → 0 < s.value.length

/-- `ByteMaskGenerator` from `src/mem/mod.rs`: a 64-bit LCG state. -/
structure ByteMaskGenerator where
  state : Nat
  deriving Repr, DecidableEq

/-- `ByteMaskGenerator::new`: the state starts at the seed. -/
def ByteMaskGenerator.new (seed : Nat) : ByteMaskGenerator :=
  ⟨seed⟩

/-- `ByteMaskGenerator::next`: `state = state.wrapping_mul(6364136223846793005) + 1`
(wrapping 64-bit), emitting byte `(state >> 32) & 0xFF`. Returns the advanced
generator and the emitted byte. -/
def ByteMaskGenerator.next (g : ByteMaskGenerator) : ByteMaskGenerator × Nat :=
  let s := (g.state * 6364136223846793005 + 1) % 2 ^ 64
  (⟨s⟩, (s >>> 32) &&& 0xFF)

/-- The first `n` bytes emitted by a generator. -/
def ByteMaskGenerator.stream (g : ByteMaskGenerator) : Nat → List Nat
  | 0 => []
  | n + 1 =>
    let r := g.next
    r.2 :: r.1.stream n

/-- XOR a buffer against the keystream of a generator, threading the state. -/
def applyMaskFrom (g : ByteMaskGenerator) : List Nat → List Nat
  | [] => []
  | b :: rest =>
    let r := g.next
    (b ^^^ r.2) :: applyMaskFrom r.1 rest

/-- `DefaultProtectedValue` from `src/mem/mod.rs`: the masked buffer and the
mask seed. -/
structure DefaultProtectedValue where
  secret : SecretBytes
  seed : Nat
  deriving Repr, DecidableEq

/-- `DefaultProtectedValue::apply_mask`: XOR every byte of the slice with the
keystream derived from the seed. -/
def DefaultProtectedValue.apply_mask (seed : Nat) (v : List Nat) : List Nat :=
  applyMaskFrom (ByteMaskGenerator.new seed) v

/-- `apply_mask(seed, &mut secret)` goes through `DerefMut`, i.e. it masks the
logical-length slice `value()[..len]` in place, leaving the rest of the
buffer untouched. -/
def maskSecret (seed : Nat) (s : SecretBytes) : SecretBytes :=
  { s with value :=
      DefaultProtectedValue.apply_mask seed (s.value.take s.len) ++ s.value.drop s.len }

/-- `DefaultProtectedValue::new`: copy the plaintext into a page-locked
`SecretBytes` and mask it. The non-zero random seed drawn by the
`while seed == 0` loop is modelled as the parameter `seed`. -/
def DefaultProtectedValue.new (value : List Nat) (seed : Nat) (osLockOk : Bool) :
    DefaultProtectedValue :=
  { secret := maskSecret seed (SecretBytes.with_value value true osLockOk), seed := seed }

/-- `DefaultProtectedValue::get_secret` as the state-passing form of a `&self`
method: clone the masked buffer, mask it again (XOR is self-inverse), and
return the plaintext together with the (unchanged) handle. -/
def DefaultProtectedValue.get_secretS (p : DefaultProtectedValue) (osLockOk : Bool) :
    SecretBytes × DefaultProtectedValue :=
  (maskSecret p.seed (p.secret.clone osLockOk), p)

/-- `DefaultProtectedValue::get_secret` from `src/mem/mod.rs`. -/
def DefaultProtectedValue.get_secret (p : DefaultProtectedValue) (osLockOk : Bool) :
    SecretBytes :=
  (p.get_secretS osLockOk).1

/-- `CRYPTPROTECTMEMORY_BLOCK_SIZE` of the Windows API. -/
def CRYPTPROTECTMEMORY_BLOCK_SIZE : Nat := 16

/-- `Win32ProtectedValue::protected_size` from `src/mem/impl_win32/mod.rs`:
`data_size + (block_size - (data_size % block_size))`. -/
def Win32ProtectedValue.protected_size (data_size : Nat) : Nat :=
  let block_size := CRYPTPROTECTMEMORY_BLOCK_SIZE
  data_size + (block_size - data_size % block_size)

/-- `Win32ProtectedValue` from `src/mem/impl_win32/mod.rs`. -/
structure Win32ProtectedValue where
  protected_data : SecretBytes
  deriving Repr, DecidableEq

/-- The buffer staged by `Win32ProtectedValue::new` just before the
`CryptProtectMemory` call: a page-locked zero buffer of `protected_size`
bytes, the plaintext copied into its start, logical length set back to the
unpadded size. -/
def Win32ProtectedValue.staged (value : List Nat) (osLockOk : Bool) : SecretBytes :=
  let pd := SecretBytes.new (Win32ProtectedValue.protected_size value.length) true osLockOk
  ({ pd with value := value ++ pd.value.drop value.length }).set_len value.length

/-- `Win32ProtectedValue::new`: stage the padded buffer and encrypt it in
place with `CryptProtectMemory` (oracle `enc` over the full buffer); on
failure the Rust code panics, modelled as `none`. -/
def Win32ProtectedValue.new (enc : List Nat → Option (List Nat)) (value : List Nat)
    (osLockOk : Bool) : Option Win32ProtectedValue :=
  let pd := Win32ProtectedValue.staged value osLockOk
  match enc pd.value with
  | none => none
  | some e => some { protected_data := { pd with value := e } }

/-- `Win32ProtectedValue::get_secret`: clone the encrypted buffer and decrypt
it in place with `CryptUnprotectMemory` (oracle `dec` over the full buffer);
on failure the Rust code panics, modelled as `none`. -/
def Win32ProtectedValue.get_secret (p : Win32ProtectedValue)
    (dec : List Nat → Option (List Nat)) (osLockOk : Bool) : Option SecretBytes :=
  let ret := p.protected_data.clone osLockOk
  match dec ret.value with
  | none => none
  | some d => some { ret with value := d }

theorem lockOp_fst_value (s : SecretBytes) (ok : Bool) : (s.lockOp ok).1.value = s.value := by
  simp only [SecretBytes.lockOp]
  split <;> rfl

theorem lockOp_fst_len (s : SecretBytes) (ok : Bool) : (s.lockOp ok).1.len = s.len := by
  simp only [SecretBytes.lockOp]
  split <;> rfl

theorem newT_fst_value (size : Nat) (w ok : Bool) :
    (SecretBytes.newT size w ok).1.value = List.replicate size 0 := by
  simp only [SecretBytes.newT]
  split
  · exact lockOp_fst_value _ _
  · rfl

theorem newT_fst_len (size : Nat) (w ok : Bool) :
    (SecretBytes.newT size w ok).1.len = size := by
  simp only [SecretBytes.newT]
  split
  · exact lockOp_fst_len _ _
  · rfl

theorem with_value_value (v : List Nat) (w ok : Bool) :
    (SecretBytes.with_value v w ok).value = v := by
  rfl

theorem with_value_len (v : List Nat) (w ok : Bool) :
    (SecretBytes.with_value v w ok).len = v.length := by
  simp only [SecretBytes.with_value, SecretBytes.with_valueT]
  exact newT_fst_len _ _ _

theorem clone_value (s : SecretBytes) (ok : Bool) : (s.clone ok).value = s.value := by
  rfl

theorem clone_len (s : SecretBytes) (ok : Bool) :
    (s.clone ok).len = min s.len s.value.length := by
  simp only [SecretBytes.clone, SecretBytes.set_len, SecretBytes.buffer_len,
    with_value_value]

theorem applyMaskFrom_length (g : ByteMaskGenerator) (v : List Nat) :
    (applyMaskFrom g v).length = v.length := by
  induction v generalizing g with
  | nil => rfl
  | cons b rest ih => simp [applyMaskFrom, ih]

theorem applyMaskFrom_applyMaskFrom (g : ByteMaskGenerator) (v : List Nat) :
    applyMaskFrom g (applyMaskFrom g v) = v := by
  induction v generalizing g with
  | nil => rfl
  | cons b rest ih =>
    simp [applyMaskFrom, ih, Nat.xor_assoc]

theorem apply_mask_length (seed : Nat) (v : List Nat) :
    (DefaultProtectedValue.apply_mask seed v).length = v.length :=
  applyMaskFrom_length _ _

theorem apply_mask_apply_mask (seed : Nat) (v : List Nat) :
    DefaultProtectedValue.apply_mask seed (DefaultProtectedValue.apply_mask seed v) = v :=
  applyMaskFrom_applyMaskFrom _ _

/-- C3: the keystream generator starts from 64-bit state equal to the seed,
each step sets `state = state * 6364136223846793005 + 1` with wrapping 64-bit
arithmetic and emits byte `(state >> 32) & 0xFF`, and for seed 1234 the first
three emitted bytes are `0x5b, 0x18, 0x2a`. -/
theorem mask_generator_matches_spec :
    (∀ seed : Nat, (ByteMaskGenerator.new seed).state = seed) ∧
    (∀ g : ByteMaskGenerator,
        g.next.1.state = (g.state * 6364136223846793005 + 1) % 2 ^ 64 ∧
        g.next.2 = (((g.state * 6364136223846793005 + 1) % 2 ^ 64) >>> 32) &&& 0xFF) ∧
    (ByteMaskGenerator.new 1234).stream 3 = [0x5b, 0x18, 0x2a] := by
  refine ⟨fun _ => rfl, fun g => ⟨rfl, rfl⟩, ?_⟩
  rfl

/-- C5: `set_len n` sets the logical length to `n` when `n` fits in the
capacity and clamps it to the capacity otherwise; the buffer (and hence the
capacity) is unchanged, so no reallocation occurs. -/
theorem set_len_clamps (s : SecretBytes) (n : Nat) :
    (n ≤ s.buffer_len → (s.set_len n).len = n) ∧
    (s.buffer_len < n → (s.set_len n).len = s.buffer_len) ∧
    (s.set_len n).buffer_len = s.buffer_len ∧
    (s.set_len n).value = s.value := by
  refine ⟨fun h => ?_, fun h => ?_, rfl, rfl⟩ <;>
    simp only [SecretBytes.set_len] <;> omega

/-- Witness for C5 at a concrete buffer of capacity 3. -/
theorem set_len_clamps_w :
    ((⟨[1, 2, 3], false, 3⟩ : SecretBytes).set_len 2).len = 2 :=
  (set_len_clamps ⟨[1, 2, 3], false, 3⟩ 2).1 (by decide)

/-- C6: with size 0, `lock_mem` and `unlock_mem` return `false` without
invoking the OS primitive; the OS primitive is invoked exactly when the size
is positive. -/
theorem zero_size_lock_is_noop :
    (∀ os : Bool, (lock_mem os 0).result = false ∧ (lock_mem os 0).osInvoked = false) ∧
    (∀ os : Bool, (unlock_mem os 0).result = false ∧ (unlock_mem os 0).osInvoked = false) ∧
    (∀ (os : Bool) (n : Nat), (lock_mem os n).osInvoked = true ↔ 0 < n) ∧
    (∀ (os : Bool) (n : Nat), (unlock_mem os n).osInvoked = true ↔ 0 < n) := by
  refine ⟨fun os => ⟨rfl, rfl⟩, fun os => ⟨rfl, rfl⟩, fun os n => ?_, fun os n => ?_⟩ <;>
    by_cases h : 0 < n <;> simp [lock_mem, unlock_mem, h]

/-- C7: the padding computed by `protected_size` always adds between 1 and
`CRYPTPROTECTMEMORY_BLOCK_SIZE` bytes, and a size of exactly `k` blocks is
padded to `k + 1` blocks. -/
theorem protected_size_padding :
    (∀ d : Nat, 1 ≤ Win32ProtectedValue.protected_size d - d ∧
        Win32ProtectedValue.protected_size d - d ≤ CRYPTPROTECTMEMORY_BLOCK_SIZE) ∧
    (∀ k : Nat, Win32ProtectedValue.protected_size (k * CRYPTPROTECTMEMORY_BLOCK_SIZE) =
        (k + 1) * CRYPTPROTECTMEMORY_BLOCK_SIZE) := by
  constructor <;> intro d <;>
    simp only [Win32ProtectedValue.protected_size, CRYPTPROTECTMEMORY_BLOCK_SIZE] <;>
    omega

/-- C1: round-trip through the default obfuscation strategy — for every byte
sequence `B` and every non-zero seed, constructing a `DefaultProtectedValue`
from `B` and then revealing it yields exactly `B`, whatever the outcomes of
the page-lock attempts. -/
theorem default_round_trip (B : List Nat) (seed : Nat) (h : seed ≠ 0) (ok1 ok2 : Bool) :
    ((DefaultProtectedValue.new B seed ok1).get_secret ok2).value_bytes = B := by
  have hlen := apply_mask_length seed B
  have h1 : (DefaultProtectedValue.new B seed ok1).secret.value
      = DefaultProtectedValue.apply_mask seed B := by
    simp [DefaultProtectedValue.new, maskSecret, with_value_value, with_value_len]
  have h2 : (DefaultProtectedValue.new B seed ok1).secret.len = B.length := by
    simp [DefaultProtectedValue.new, maskSecret, with_value_len]
  have h5 : (DefaultProtectedValue.apply_mask seed B).take B.length
      = DefaultProtectedValue.apply_mask seed B := by
    rw [← hlen, List.take_length]
  have h6 : (DefaultProtectedValue.apply_mask seed B).drop B.length = [] := by
    rw [← hlen]; exact List.drop_length _
  have h3 : ((DefaultProtectedValue.new B seed ok1).secret.clone ok2).value
      = DefaultProtectedValue.apply_mask seed B := by
    rw [clone_value, h1]
  have h4 : ((DefaultProtectedValue.new B seed ok1).secret.clone ok2).len = B.length := by
    rw [clone_len, h1, h2, hlen, Nat.min_self]
  have hseed : (DefaultProtectedValue.new B seed ok1).seed = seed := rfl
  simp only [DefaultProtectedValue.get_secret, DefaultProtectedValue.get_secretS,
    maskSecret, SecretBytes.value_bytes]
  rw [hseed, h3, h4, h5, h6, apply_mask_apply_mask, List.append_nil, List.take_length]

/-- Witness for C1 on the bytes `[1, 2, 3]` with seed 1234. -/
theorem default_round_trip_w :
    ((DefaultProtectedValue.new [1, 2, 3] 1234 true).get_secret false).value_bytes
      = [1, 2, 3] :=
  default_round_trip [1, 2, 3] 1234 (by decide) true false

/-- C2: `Drop for SecretBytes` first overwrites every byte of the whole buffer
(all capacity bytes) with zero and only then invokes the OS unlock, which is
invoked exactly when the lock was held (the buffer of a locked `SecretBytes`
being non-empty). -/
theorem drop_wipes_all_then_unlocks (s : SecretBytes) (ok : Bool)
    (h : SecretBytes.lockedInv s) :
    (s.dropRun ok).1.value = List.replicate s.buffer_len 0 ∧
    (s.dropRun ok).2 = s.locked := by
  constructor
  · simp only [SecretBytes.dropRun, SecretBytes.unlockOp, SecretBytes.buffer_len]
    split <;> rfl
  · simp only [SecretBytes.dropRun, SecretBytes.unlockOp]
    by_cases hl : s.locked
    · have hpos : 0 < s.value.length := h hl
      simp [hl, unlock_mem, hpos]
    · simp [hl]

/-- Witness for C2 on a locked one-byte buffer. -/
theorem drop_wipes_all_then_unlocks_w :
    ((⟨[7], true, 1⟩ : SecretBytes).dropRun true).1.value = List.replicate 1 0 ∧
    ((⟨[7], true, 1⟩ : SecretBytes).dropRun true).2 = true :=
  drop_wipes_all_then_unlocks ⟨[7], true, 1⟩ true (fun _ => by decide)

/-- C4: `get_secret` leaves the handle's internal state (encoded buffer and
seed) unchanged, and any two calls on the same handle return plaintexts with
identical contents and logical length; the same determinism holds for the
Win32 strategy for any fixed decryption primitive. -/
theorem get_secret_pure_and_deterministic :
    (∀ (p : DefaultProtectedValue) (ok : Bool), (p.get_secretS ok).2 = p) ∧
    (∀ (p : DefaultProtectedValue) (a b : Bool),
        (p.get_secret a).value_bytes = (p.get_secret b).value_bytes ∧
        (p.get_secret a).len = (p.get_secret b).len) ∧
    (∀ (p : Win32ProtectedValue) (dec : List Nat → Option (List Nat)) (a b : Bool),
        (p.get_secret dec a).map SecretBytes.value_bytes
          = (p.get_secret dec b).map SecretBytes.value_bytes) := by
  refine ⟨fun p ok => rfl, fun p a b => ?_, fun p dec a b => ?_⟩
  · have hv : (p.secret.clone a).value = (p.secret.clone b).value := by
      rw [clone_value, clone_value]
    have hl : (p.secret.clone a).len = (p.secret.clone b).len := by
      rw [clone_len, clone_len]
    simp only [DefaultProtectedValue.get_secret, DefaultProtectedValue.get_secretS,
      maskSecret, SecretBytes.value_bytes]
    rw [hv, hl]
    exact ⟨rfl, rfl⟩
  · have hv : (p.protected_data.clone a).value = (p.protected_data.clone b).value := by
      rw [clone_value, clone_value]
    have hl : (p.protected_data.clone a).len = (p.protected_data.clone b).len := by
      rw [clone_len, clone_len]
    simp only [Win32ProtectedValue.get_secret, hv]
    cases hdec : dec (p.protected_data.clone b).value with
    | none => rfl
    | some d =>
      simp [SecretBytes.value_bytes]
      rw [hl]

theorem lockOp_fst_locked (s : SecretBytes) (ok : Bool) :
    (s.lockOp ok).1.locked = true → (0 < s.value.length ∧ ok = true) ∨ s.locked = true := by
  simp only [SecretBytes.lockOp, lock_mem]
  split
  · split
    · next _ hn => intro hx; exact Or.inl ⟨hn, hx⟩
    · intro hx; cases hx
  · intro hx; exact Or.inr hx

theorem newT_fst_locked (size : Nat) (w ok : Bool) :
    (SecretBytes.newT size w ok).1.locked = (if w = true ∧ 0 < size then ok else false) := by
  rcases Nat.eq_zero_or_pos size with hz | hp
  · subst hz
    by_cases hw : w <;>
      simp [SecretBytes.newT, SecretBytes.lockOp, SecretBytes.is_empty, lock_mem, hw]
  · by_cases hw : w <;>
      simp [SecretBytes.newT, SecretBytes.lockOp, SecretBytes.is_empty, lock_mem,
        hw, hp, hp.ne']

theorem clone_locked (s : SecretBytes) (ok : Bool) :
    (s.clone ok).locked = (if s.locked = true ∧ 0 < s.value.length then ok else false) := by
  show (SecretBytes.newT s.value.length s.locked ok).1.locked = _
  exact newT_fst_locked _ _ _

theorem unlockOp_fst_value (s : SecretBytes) (ok : Bool) :
    (s.unlockOp ok).1.value = s.value := by
  simp only [SecretBytes.unlockOp]
  split <;> rfl

theorem unlockOp_fst_locked (s : SecretBytes) (ok : Bool) :
    (s.unlockOp ok).1.locked = true → s.locked = true := by
  simp only [SecretBytes.unlockOp]
  split
  · next hc => intro _; exact hc
  · intro hx; exact hx

theorem lockOp_inv (s : SecretBytes) (ok : Bool) (h : SecretBytes.lockedInv s) :
    SecretBytes.lockedInv (s.lockOp ok).1 := by
  intro hl
  rw [lockOp_fst_value]
  rcases lockOp_fst_locked s ok hl with ⟨hn, _⟩ | hL
  · exact hn
  · exact h hL

theorem unlockOp_inv (s : SecretBytes) (ok : Bool) (h : SecretBytes.lockedInv s) :
    SecretBytes.lockedInv (s.unlockOp ok).1 := by
  intro hl
  rw [unlockOp_fst_value]
  exact h (unlockOp_fst_locked s ok hl)

theorem newT_inv (size : Nat) (w ok : Bool) :
    SecretBytes.lockedInv (SecretBytes.newT size w ok).1 := by
  intro hl
  rw [newT_fst_value, List.length_replicate]
  revert hl
  simp only [SecretBytes.newT]
  split
  · intro hl
    rcases lockOp_fst_locked _ ok hl with ⟨hn, _⟩ | hL
    · simpa using hn
    · cases hL
  · intro hl; cases hl

theorem with_value_inv (v : List Nat) (w ok : Bool) :
    SecretBytes.lockedInv (SecretBytes.with_value v w ok) := by
  intro hl
  have h2 := newT_inv v.length w ok hl
  rw [newT_fst_value, List.length_replicate] at h2
  show 0 < (SecretBytes.with_value v w ok).value.length
  rw [with_value_value]
  exact h2

theorem set_len_inv (s : SecretBytes) (n : Nat) (h : SecretBytes.lockedInv s) :
    SecretBytes.lockedInv (s.set_len n) :=
  h

theorem clone_inv (s : SecretBytes) (ok : Bool) :
    SecretBytes.lockedInv (s.clone ok) :=
  set_len_inv _ _ (with_value_inv s.value s.locked ok)

theorem dropRun_inv (s : SecretBytes) (ok : Bool) (h : SecretBytes.lockedInv s) :
    SecretBytes.lockedInv (s.dropRun ok).1 := by
  have hz : SecretBytes.lockedInv { s with value := List.replicate s.value.length 0 } := by
    intro hl
    simpa using h hl
  exact unlockOp_inv _ ok hz

/-- C8: with the platform-optimized strategy, failure of the OS in-place
encryption primitive during construction, or of the decryption primitive
during reveal, aborts (modelled as `none`, never a value carrying the
unprotected or corrupt buffer). -/
theorem crypt_failure_is_fatal (enc dec : List Nat → Option (List Nat))
    (value : List Nat) (p : Win32ProtectedValue) (ok1 ok2 : Bool)
    (henc : enc (Win32ProtectedValue.staged value ok1).value = none)
    (hdec : dec (p.protected_data.clone ok2).value = none) :
    Win32ProtectedValue.new enc value ok1 = none ∧
    p.get_secret dec ok2 = none := by
  constructor
  · simp only [Win32ProtectedValue.new, henc]
  · simp only [Win32ProtectedValue.get_secret, hdec]

/-- Witness for C8 with always-failing OS primitives. -/
theorem crypt_failure_is_fatal_w :
    Win32ProtectedValue.new (fun _ => none) [1] true = none ∧
    Win32ProtectedValue.get_secret ⟨⟨[0], false, 0⟩⟩ (fun _ => none) true = none :=
  crypt_failure_is_fatal (fun _ => none) (fun _ => none) [1] ⟨⟨[0], false, 0⟩⟩
    true true rfl rfl

/-- C9: `clone` deep-copies the full buffer and the logical length (given the
data-model invariant `len ≤ capacity`), re-attempts the same lock intent on
the copy, and mutating the clone's contents leaves the original's contents
untouched. -/
theorem clone_is_deep_copy (s : SecretBytes) (ok : Bool) (i b : Nat)
    (h : s.len ≤ s.buffer_len) :
    (s.clone ok).buffer = s.buffer ∧
    (s.clone ok).len = s.len ∧
    (s.clone ok).locked = (if s.locked = true ∧ 0 < s.buffer_len then ok else false) ∧
    (s.cloneThenWrite ok i b).2.value = s.value.set i b ∧
    (s.cloneThenWrite ok i b).1 = s := by
  refine ⟨clone_value s ok, ?_, ?_, ?_, rfl⟩
  · rw [clone_len]
    exact min_eq_left h
  · exact clone_locked s ok
  · show ((s.clone ok).write i b).value = s.value.set i b
    simp only [SecretBytes.write, clone_value]

/-- Witness for C9 on a two-byte buffer. -/
theorem clone_is_deep_copy_w :
    ((⟨[1, 2], false, 2⟩ : SecretBytes).clone false).len = 2 :=
  (clone_is_deep_copy ⟨[1, 2], false, 2⟩ false 0 9 (by decide)).2.1

/-- C10: an empty `SecretBytes` is never page-locked — size-0 construction
with lock requested attempts no OS lock call and ends unlocked, and the
invariant that `locked` implies a non-empty buffer is established by the
constructors and preserved by every operation. -/
theorem empty_buffer_never_locked :
    (∀ ok : Bool, SecretBytes.newT 0 true ok = (⟨[], false, 0⟩, false)) ∧
    (∀ ok : Bool, SecretBytes.with_valueT [] true ok = (⟨[], false, 0⟩, false)) ∧
    (∀ (size : Nat) (w ok : Bool), SecretBytes.lockedInv (SecretBytes.new size w ok)) ∧
    (∀ (v : List Nat) (w ok : Bool), SecretBytes.lockedInv (SecretBytes.with_value v w ok)) ∧
    (∀ (s : SecretBytes) (n : Nat),
        SecretBytes.lockedInv s → SecretBytes.lockedInv (s.set_len n)) ∧
    (∀ (s : SecretBytes) (ok : Bool), SecretBytes.lockedInv (s.clone ok)) ∧
    (∀ (s : SecretBytes) (ok : Bool),
        SecretBytes.lockedInv s → SecretBytes.lockedInv (s.lockOp ok).1) ∧
    (∀ (s : SecretBytes) (ok : Bool),
        SecretBytes.lockedInv s → SecretBytes.lockedInv (s.unlockOp ok).1) ∧
    (∀ (s : SecretBytes) (ok : Bool),
        SecretBytes.lockedInv s → SecretBytes.lockedInv (s.dropRun ok).1) :=
  ⟨fun _ => rfl, fun _ => rfl, fun size w ok => newT_inv size w ok,
    fun v w ok => with_value_inv v w ok, fun s n h => set_len_inv s n h,
    fun s ok => clone_inv s ok, fun s ok h => lockOp_inv s ok h,
    fun s ok h => unlockOp_inv s ok h, fun s ok h => dropRun_inv s ok h⟩

/-- Witness for C10: the invariant holds for a concrete locked buffer after
`set_len 0`. -/
theorem empty_buffer_never_locked_w :
    SecretBytes.lockedInv ((⟨[9], true, 1⟩ : SecretBytes).set_len 0) :=
  empty_buffer_never_locked.2.2.2.2.1 ⟨[9], true, 1⟩ 0 (fun _ => by decide)

end Il2Mem
